import Mathlib

/-!
Verification development for the movie recommendation backend.

This file gives a shallow embedding, in Lean 4, of the retrieval-and-ranking
engine of the repository: the Redis result cache wrapper (`backend/cache.py`),
the deterministic experiment bucketing (`backend/features.py`), the vector
repository's centroid (`backend/repositories/vector_repository.py`), the
metadata repository (`backend/repositories/movie_repository.py`) and the
recommendation service (`backend/services/recommendation_service.py`).

Modelling conventions:
- Python floats are modelled as rationals (`ℚ`); the claims under study are
  about ordering, filtering and exact arithmetic identities, none of which
  depend on floating-point rounding.
- Python dicts built from a sequence of key/value pairs are modelled by
  association lists where the *last* binding of a key wins (as in Python),
  and whose key iteration order is first-occurrence order (as in CPython 3.7+).
- Python sets are modelled as first-occurrence deduplicated lists; CPython's
  hash iteration order is abstracted to first-occurrence order (the claims
  proved about set-derived data are order-insensitive).
- External collaborators (the Qdrant vector index, the neural search service,
  the random sampler of `random.sample`, Redis connectivity) are oracle
  parameters; exceptions raised by an external call are modelled with
  `Except Unit`.
- Exceptions that the Python code catches are modelled by the corresponding
  `try/except` branch structure; code paths that record *which* branch ran
  (e.g. whether the cold-start fallback was invoked) carry an explicit flag.
-/

namespace MovieRec

open scoped List

/-! ## Basic data model -/

/-- A candidate returned by the vector index: `{"movie_id": ..., "score": ...}`
as built in `VectorRepository.search_similar`. -/
structure Candidate where
  movie_id : Int
  score : ℚ
deriving DecidableEq, Repr

/-- A row of the `movies` Postgres table, as selected by
`MovieRepository.get_movies_by_ids` (`movie_id, title, genres, poster_url`). -/
structure MovieRow where
  id : Int
  title : String
  genres : String
  poster_url : Option String
deriving DecidableEq, Repr

/-- The `Movie` pydantic model of `backend/models/schemas.py`. -/
structure Movie where
  id : Int
  title : String
  genres : String
  poster_url : Option String
  score : ℚ
deriving DecidableEq, Repr

/-! ## Python dict / set helpers -/

/-- Lookup in a Python dict built from a list of key/value pairs
(`{k: v for (k, v) in pairs}`): the last binding of a key wins. -/
def dictLookup {α : Type} (pairs : List (Int × α)) (k : Int) : Option α :=
  (pairs.reverse.find? (fun p => p.1 == k)).map (fun p => p.2)

/-- Auxiliary recursion for `firstDedup`, carrying the set of keys seen so far. -/
def firstDedupAux {α : Type} [DecidableEq α] (seen : List α) : List α → List α
  | [] => []
  | x :: xs =>
    if x ∈ seen then firstDedupAux seen xs
    else x :: firstDedupAux (x :: seen) xs

/-- First-occurrence deduplication: the iteration order of a CPython dict's
keys (and the model used here for `set(...)` iteration order). -/
def firstDedup {α : Type} [DecidableEq α] (l : List α) : List α :=
  firstDedupAux [] l

/-! ## movie_repository.py -/

/-- Does the character list `s` start with the character list `pat`. -/
def startsWithChars : List Char → List Char → Bool
  | _, [] => true
  | [], _ :: _ => false
  | c :: cs, p :: ps => p == c && startsWithChars cs ps

/-- Does the character list `s` contain `pat` as a contiguous run. -/
def hasInfixChars (s pat : List Char) : Bool :=
  (List.range (s.length + 1)).any (fun i => startsWithChars (s.drop i) pat)

/-- SQL `column ILIKE '%pat%'`: case-insensitive substring containment. -/
def strContainsCI (s pat : String) : Bool :=
  hasInfixChars s.toLower.toList pat.toLower.toList

/-- The OR-combined WHERE clause of `MovieRepository.find_movies_by_criteria`:
`genres ILIKE %g%` for each genre, `title ILIKE %kw%` for each keyword. -/
def movieMatchesCriteria (genres keywords : List String) (r : MovieRow) : Bool :=
  genres.any (fun g => strContainsCI r.genres g)
    || keywords.any (fun kw => strContainsCI r.title kw)

/-- Embedding of `MovieRepository.find_movies_by_criteria`: with no
conditions it returns `[]`; otherwise it selects matching movie IDs with
`LIMIT limit` (Postgres row order modelled as table order). -/
def find_movies_by_criteria (table : List MovieRow) (genres keywords : List String)
    (limit : Nat) : List Int :=
  if genres.isEmpty && keywords.isEmpty then []
  else ((table.filter (movieMatchesCriteria genres keywords)).map (fun r => r.id)).take limit

/-- Embedding of `MovieRepository.get_movies_by_ids` as a lookup function:
the dict `{row[0]: {...} for row in rows}` where `rows` is the table filtered
to the requested IDs; the last row with a given id wins. -/
def get_movies_by_ids (table : List MovieRow) (movie_ids : List Int) :
    Int → Option MovieRow :=
  fun mid =>
    if mid ∈ movie_ids then table.reverse.find? (fun r => r.id == mid) else none

/-- The `.values()` view of the dict built by `get_movies_by_ids`: keys in
first-occurrence order of the selected rows, each mapped to the last row
carrying that id. -/
def get_movies_by_ids_values (table : List MovieRow) (movie_ids : List Int) :
    List MovieRow :=
  let rows := table.filter (fun r => r.id ∈ movie_ids)
  (firstDedup (rows.map (fun r => r.id))).filterMap
    (fun k => rows.reverse.find? (fun r => r.id == k))

/-! ## cache.py -/

/-- Key construction of the `cache_result` wrapper:
`f"{key_prefix}:{args[0]}" if args else f"{key_prefix}:default"`, where
`args` is the tuple of positional arguments rendered by `str`. -/
def cache_key (pfx : String) (posArgs : List String) : String :=
  match posArgs with
  | [] => pfx ++ ":default"
  | a :: _ => pfx ++ ":" ++ a

/-- The cache key produced when the decorated *bound method*
`RecommendationService.recommend_for_user` is invoked as
`service.recommend_for_user(user_id, ...)`: the positional argument tuple
received by the wrapper starts with `self`, so `args[0]` is the service
object (rendered by `str`), not the user id. -/
def recommend_for_user_cache_key (selfRepr : String) (user_id : Int) : String :=
  cache_key "rec" (selfRepr :: [toString user_id])

/-- Cache store state: one entry per key with its value and TTL. The JSON
round-trip (`json.dumps` on write, `json.loads` on a hit) is modelled as the
identity on the stored value. -/
def cacheGet {α : Type} (st : List (String × α × Nat)) (key : String) : Option α :=
  (st.find? (fun e => e.1 == key)).map (fun e => e.2.1)

/-- Redis `SETEX key ttl value`: bind `key`, replacing any previous binding. -/
def cacheSet {α : Type} (st : List (String × α × Nat)) (key : String) (v : α)
    (ttl : Nat) : List (String × α × Nat) :=
  (key, v, ttl) :: st.filter (fun e => ¬ (e.1 = key))

/-- Embedding of the body of the `cache_result` wrapper. `clientPresent`
models `_redis_client is not None`; `readOk = false` models a
`ConnectionError/TimeoutError` raised by `client.get` (caught by the code);
`writeOk = false` models the same for `client.setex`. The result triple is
(returned value, number of invocations of the wrapped function, cache state
after the call). The function is total because the wrapper catches all
connectivity errors. -/
def cachedCall {α : Type} (clientPresent readOk writeOk : Bool) (key : String)
    (ttl : Nat) (computeVal : α) (st : List (String × α × Nat)) :
    α × Nat × List (String × α × Nat) :=
  let hit : Option α :=
    if clientPresent && readOk then cacheGet st key else none
  match hit with
  | some v => (v, 0, st)
  | none =>
    let result := computeVal
    let st' := if clientPresent && writeOk then cacheSet st key result ttl else st
    (result, 1, st')

/-! ## features.py — SHA-256 and experiment bucketing

The code calls `hashlib.sha256`; the algorithm is embedded here in full over
`Nat` with explicit reduction modulo `2 ^ 32`. -/

/-- Modulus for 32-bit words. -/
def M32 : Nat := 4294967296

/-- Addition modulo `2 ^ 32`. -/
def add32 (a b : Nat) : Nat := (a + b) % M32

/-- Right rotation of a 32-bit word by `n` positions. -/
def rotr32 (n x : Nat) : Nat :=
  ((x >>> n) ||| ((x % (2 ^ n)) <<< (32 - n))) % M32

/-- The 64 SHA-256 round constants (the fractional parts of the cube roots
of the first 64 primes, scaled to 32 bits; written in decimal). -/
def sha256K : List Nat :=
  [1116352408, 1899447441, 3049323471, 3921009573, 961987163,
   1508970993, 2453635748, 2870763221, 3624381080, 310598401,
   607225278, 1426881987, 1925078388, 2162078206, 2614888103,
   3248222580, 3835390401, 4022224774, 264347078, 604807628,
   770255983, 1249150122, 1555081692, 1996064986, 2554220882,
   2821834349, 2952996808, 3210313671, 3336571891, 3584528711,
   113926993, 338241895, 666307205, 773529912, 1294757372,
   1396182291, 1695183700, 1986661051, 2177026350, 2456956037,
   2730485921, 2820302411, 3259730800, 3345764771, 3516065817,
   3600352804, 4094571909, 275423344, 430227734, 506948616,
   659060556, 883997877, 958139571, 1322822218, 1537002063,
   1747873779, 1955562222, 2024104815, 2227730452, 2361852424,
   2428436474, 2756734187, 3204031479, 3329325298]

/-- The initial SHA-256 hash state (the fractional parts of the square roots
of the first 8 primes, scaled to 32 bits; written in decimal). -/
def sha256H0 : List Nat :=
  [1779033703, 3144134277, 1013904242, 2773480762,
   1359893119, 2600822924, 528734635, 1541459225]

/-- Big-endian byte rendering of `x` on `n` bytes. -/
def bytesBE (n x : Nat) : List Nat :=
  (List.range n).map (fun i => (x >>> (8 * (n - 1 - i))) % 256)

/-- SHA-256 message padding: append `0x80`, zero bytes up to 56 mod 64, and
the bit length on 8 big-endian bytes. -/
def sha256Pad (msg : List Nat) : List Nat :=
  let padZeros := (119 - (msg.length % 64)) % 64
  msg ++ [0x80] ++ List.replicate padZeros 0 ++ bytesBE 8 (8 * msg.length)

/-- Group a byte list into big-endian 32-bit words. -/
def bytesToWordsBE : List Nat → List Nat
  | b0 :: b1 :: b2 :: b3 :: rest =>
    (((b0 * 256 + b1) * 256 + b2) * 256 + b3) :: bytesToWordsBE rest
  | _ => []

/-- SHA-256 lower-case sigma-0. -/
def smallSigma0 (x : Nat) : Nat := (rotr32 7 x) ^^^ (rotr32 18 x) ^^^ (x >>> 3)

/-- SHA-256 lower-case sigma-1. -/
def smallSigma1 (x : Nat) : Nat := (rotr32 17 x) ^^^ (rotr32 19 x) ^^^ (x >>> 10)

/-- SHA-256 upper-case Sigma-0. -/
def bigSigma0 (x : Nat) : Nat := (rotr32 2 x) ^^^ (rotr32 13 x) ^^^ (rotr32 22 x)

/-- SHA-256 upper-case Sigma-1. -/
def bigSigma1 (x : Nat) : Nat := (rotr32 6 x) ^^^ (rotr32 11 x) ^^^ (rotr32 25 x)

/-- Extend 16 message-schedule words to 64. -/
def extendSchedule (w16 : Array Nat) : Array Nat :=
  (List.range 48).foldl
    (fun w i =>
      let t := (w.getD (i + 0) 0 + smallSigma0 (w.getD (i + 1) 0)
        + w.getD (i + 9) 0 + smallSigma1 (w.getD (i + 14) 0)) % M32
      w.push t)
    w16

/-- The eight 32-bit working registers of the compression loop. -/
structure Sha256State where
  a : Nat
  b : Nat
  c : Nat
  d : Nat
  e : Nat
  f : Nat
  g : Nat
  h : Nat

/-- SHA-256 choice function (with 32-bit bitwise complement). -/
def ch32 (x y z : Nat) : Nat := (x &&& y) ^^^ (((M32 - 1) ^^^ x) &&& z)

/-- SHA-256 majority function. -/
def maj32 (x y z : Nat) : Nat := (x &&& y) ^^^ (x &&& z) ^^^ (y &&& z)

/-- One round of the SHA-256 compression loop on the constant/word pair `kw`. -/
def sha256Round (st : Sha256State) (kw : Nat × Nat) : Sha256State :=
  let t1 := (st.h + bigSigma1 st.e + ch32 st.e st.f st.g + kw.1 + kw.2) % M32
  let t2 := (bigSigma0 st.a + maj32 st.a st.b st.c) % M32
  ⟨(t1 + t2) % M32, st.a, st.b, st.c, (st.d + t1) % M32, st.e, st.f, st.g⟩

/-- Compress one 64-byte block into the running hash state. -/
def sha256Compress (hs : List Nat) (block : List Nat) : List Nat :=
  let w := extendSchedule (bytesToWordsBE block).toArray
  let init : Sha256State :=
    ⟨hs.getD 0 0, hs.getD 1 0, hs.getD 2 0, hs.getD 3 0,
     hs.getD 4 0, hs.getD 5 0, hs.getD 6 0, hs.getD 7 0⟩
  let fin := (sha256K.zip w.toList).foldl sha256Round init
  [add32 (hs.getD 0 0) fin.a, add32 (hs.getD 1 0) fin.b,
   add32 (hs.getD 2 0) fin.c, add32 (hs.getD 3 0) fin.d,
   add32 (hs.getD 4 0) fin.e, add32 (hs.getD 5 0) fin.f,
   add32 (hs.getD 6 0) fin.g, add32 (hs.getD 7 0) fin.h]

/-- Fold the compression function over all 64-byte blocks. -/
def sha256Blocks (hs : List Nat) (bytes : List Nat) : List Nat :=
  if h : bytes.isEmpty then hs
  else sha256Blocks (sha256Compress hs (bytes.take 64)) (bytes.drop 64)
termination_by bytes.length
decreasing_by
  simp only [List.length_drop]
  cases bytes with
  | nil => simp at h
  | cons x xs => simp; omega

/-- SHA-256 of a byte sequence, as the 32-byte digest. -/
def sha256 (msg : List Nat) : List Nat :=
  (sha256Blocks sha256H0 (sha256Pad msg)).foldr (fun w acc => bytesBE 4 w ++ acc) []

/-- Python `int(digest.hexdigest(), 16)`: the digest bytes read as one
big-endian number. -/
def digestNat (bytes : List Nat) : Nat := bytes.foldl (fun a b => a * 256 + b) 0

/-- The `FeatureFlags.ENABLE_AB_TESTING` class attribute. -/
def ENABLE_AB_TESTING : Bool := true

/-- UTF-8 encoding of a string, modelled on code points; it coincides with
UTF-8 on the ASCII strings produced by `str(user_id)` for integer ids. -/
def pyStrBytes (s : String) : List Nat := s.toList.map Char.toNat

/-- Embedding of `features.get_user_experiment_group`: SHA-256 the decimal
rendering of the user id, read the digest as a number, reduce modulo 2. -/
def get_user_experiment_group (user_id : Int) : String :=
  if ENABLE_AB_TESTING = false then "control"
  else
    let hash_val := digestNat (sha256 (pyStrBytes (toString user_id)))
    if hash_val % 2 == 0 then "control" else "treatment"

/-! ## vector_repository.py -/

/-- Componentwise addition of two vectors (`numpy` array addition over the
common length). -/
def addVec (a b : List ℚ) : List ℚ := List.zipWith (fun x y => x + y) a b

/-- Embedding of `VectorRepository.compute_centroid`
(`np.mean(vectors, axis=0).tolist()`, with `[]` for an empty input):
the componentwise sum of the vectors divided by their number. The same
expression appears inline in `recommend_cold_start`
(`np.mean(selected_vectors, axis=0)`). -/
def compute_centroid (vectors : List (List ℚ)) : List ℚ :=
  match vectors with
  | [] => []
  | v :: vs => (vs.foldl addVec v).map (fun x => x / ((vectors.length : ℚ)))

/-! ## recommendation_service.py -/

/-- Score dict access `scores.get(mid, 0.0)` where `scores` was built as
`{r["movie_id"]: r["score"] for r in results}`. -/
def scoreFor (scores : List (Int × ℚ)) (mid : Int) : ℚ :=
  (dictLookup scores mid).getD 0

/-- Embedding of `RecommendationService._enrich_movies`: look every id up in
the metadata returned by `get_movies_by_ids` (over the `movies` table), keep
the input order, silently skip ids without metadata, and attach
`scores.get(mid, 0.0)` to each kept movie. -/
def enrich_movies (table : List MovieRow) (movie_ids : List Int)
    (scores : List (Int × ℚ)) : List Movie :=
  let movie_data := get_movies_by_ids table movie_ids
  movie_ids.filterMap (fun mid =>
    (movie_data mid).map (fun data =>
      ⟨data.id, data.title, data.genres, data.poster_url, scoreFor scores mid⟩))

/-- Python `s.split("|")` over the character list of `s` (the genre
separator is the single character pipe). -/
def splitPipe : List Char → List (List Char)
  | [] => [[]]
  | c :: cs =>
    if c = '|' then [] :: splitPipe cs
    else
      match splitPipe cs with
      | g :: gs => (c :: g) :: gs
      | [] => [[c]]

/-- Python `str.lower()` on the ASCII genre names used by the data set. -/
def lowerChars (cs : List Char) : List Char := cs.map Char.toLower

/-- Python `str.strip()`: drop whitespace from both ends. -/
def trimChars (cs : List Char) : List Char :=
  ((cs.dropWhile Char.isWhitespace).reverse.dropWhile Char.isWhitespace).reverse

/-- The Python set `{g.lower() for g in target_genres}`. -/
def targetGenreSet (target_genres : List String) : Finset String :=
  (target_genres.map (fun g => String.mk (lowerChars g.toList))).toFinset

/-- The Python set `{g.strip().lower() for g in movie.genres.split("|")}`. -/
def parseGenres (genres : String) : Finset String :=
  ((splitPipe genres.toList).map
    (fun g => String.mk (lowerChars (trimChars g)))).toFinset

/-- Jaccard score of one movie against a target genre set:
`intersection / union if union > 0 else 0.0`. -/
def jaccardScore (movie : Movie) (target_set : Finset String) : ℚ :=
  let movie_genres := parseGenres movie.genres
  let inter := (movie_genres ∩ target_set).card
  let union := (movie_genres ∪ target_set).card
  if union > 0 then (inter : ℚ) / (union : ℚ) else 0

/-- Python tuple comparison `(a1, a2) <= (b1, b2)`: lexicographic order. -/
def pairLe (x y : ℚ × ℚ) : Bool :=
  decide (x.1 < y.1 ∨ (x.1 = y.1 ∧ x.2 ≤ y.2))

/-- The comparator realising `ranked_movies.sort(key=lambda x: (x["jaccard"],
x["original_score"]), reverse=True)`: a stable sort in which `x` may precede
`y` exactly when the key of `y` is lexicographically at most the key of `x`. -/
def rankedLe (x y : Movie × ℚ × ℚ) : Bool := pairLe (y.2.1, y.2.2) (x.2.1, x.2.2)

/-- The loop body of `_rank_by_genre_similarity`: compute the genre
intersection and union against the target set, and keep the movie — as the
dict `{"movie": ..., "jaccard": ..., "original_score": ...}` — only when the
intersection is non-empty. -/
def rankAnnotate (target_set : Finset String) (movie : Movie) :
    Option (Movie × ℚ × ℚ) :=
  if (parseGenres movie.genres ∩ target_set).card > 0 then
    some (movie, jaccardScore movie target_set, movie.score)
  else none

/-- Embedding of `RecommendationService._rank_by_genre_similarity`: with an
empty target list return the input unchanged; otherwise annotate each movie
with its Jaccard score against the lowered target set, keep only movies with
a non-empty genre intersection, stable-sort by (jaccard desc, original score
desc) — Python's stable `list.sort` with `reverse=True` — and project the
movies back out. -/
def rank_by_genre_similarity (movies : List Movie) (target_genres : List String) :
    List Movie :=
  if target_genres.isEmpty then movies
  else
    let target_set := targetGenreSet target_genres
    let ranked := movies.filterMap (rankAnnotate target_set)
    (ranked.mergeSort rankedLe).map (fun item => item.1)

/-- Conversion of a raw metadata dict to the returned record in the
criteria fallback branch of `recommend_cold_start` (the source returns the
metadata dicts themselves, which carry no score; the spec assigns the
criteria strategy score 0). -/
def rowToMovie (r : MovieRow) : Movie :=
  ⟨r.id, r.title, r.genres, r.poster_url, 0⟩

/-- Result of `recommend_cold_start`. `movies` is `Except.error ()` when an
uncaught exception from the vector index propagates to the caller.
`seedsUsed` records the final value of the local `selected_movie_ids` list
after the neural-search step; because the Python parameter aliases the
caller's list object and is grown with `list.extend`, this is also the
caller's list after the call whenever the caller passed a list. -/
structure ColdStartResult where
  movies : Except Unit (List Movie)
  seedsUsed : List Int
deriving Repr

/-- Steps 1 onward of `RecommendationService.recommend_cold_start`, given
the seed list `sel1` as it stands after the neural-search step: fetch seed
vectors, and either run the centroid/vector path (filtering out seeds,
enriching, optionally genre-ranking, truncating to `top_k`) or fall back to
the criteria search, or return `[]`. An `Except.error` is an uncaught
vector-index exception propagating to the caller. -/
def cold_start_movies (getVecs : List Int → List (List ℚ))
    (search : List ℚ → Nat → Except Unit (List Candidate))
    (table : List MovieRow)
    (sel1 : List Int) (genres keywords : List String)
    (top_k : Nat) : Except Unit (List Movie) :=
  let selected_vectors := if sel1.isEmpty then [] else getVecs sel1
  if selected_vectors.isEmpty = false then
    let target_vector := compute_centroid selected_vectors
    match search target_vector (top_k * 2) with
    | Except.error e => Except.error e
    | Except.ok results =>
      let recommended_movie_ids :=
        (results.filter (fun r => ¬ (r.movie_id ∈ sel1))).map (fun r => r.movie_id)
      let scores := results.map (fun r => (r.movie_id, r.score))
      let enriched_movies := enrich_movies table recommended_movie_ids scores
      let enriched_movies :=
        if genres.isEmpty = false then rank_by_genre_similarity enriched_movies genres
        else enriched_movies
      Except.ok (enriched_movies.take top_k)
  else
    let candidates :=
      if genres.isEmpty = false ∨ keywords.isEmpty = false then
        firstDedup (find_movies_by_criteria table genres keywords 50)
      else []
    if candidates.isEmpty = false then
      let candidate_movie_ids := candidates.take top_k
      Except.ok ((get_movies_by_ids_values table candidate_movie_ids).map rowToMovie)
    else Except.ok []

/-- Embedding of `RecommendationService.recommend_cold_start`.

Oracle parameters: `getVecs` is `vector_repo.get_vectors_by_ids`, `search`
is `vector_repo.search_similar` (with `Except.error ()` for a raised
exception), `table` is the `movies` table behind `movie_repo`, and
`searchSvc`, when present, is `search_service.search` (again with
`Except.error ()` for an exception, which the source catches).

The request parameters mirror the Python signature: `selected?` is
`selected_movie_ids` (`none` for the `None` default), `genres` and
`keywords` model their `None` default as `[]` (every use in the source
treats `None` and `[]` identically), and `query` is the optional text
query, with the Python truthiness test `if query` false for `""`.
Step 0 (the neural-search extension of `selected_movie_ids`) is inlined
here; steps 1 onward are `cold_start_movies`. -/
def recommend_cold_start (getVecs : List Int → List (List ℚ))
    (search : List ℚ → Nat → Except Unit (List Candidate))
    (table : List MovieRow)
    (searchSvc : Option (String → Nat → Except Unit (List Int)))
    (selected? : Option (List Int)) (genres keywords : List String)
    (query : Option String) (top_k : Nat) : ColdStartResult :=
  let sel0 := selected?.getD []
  let sel1 :=
    match query, searchSvc with
    | some q, some svc =>
      if q ≠ "" then
        match svc q 5 with
        | Except.ok search_ids => sel0 ++ search_ids
        | Except.error _ => sel0
      else sel0
    | _, _ => sel0
  ⟨cold_start_movies getVecs search table sel1 genres keywords top_k, sel1⟩

/-- The caller's `selected_movie_ids` list object after a call to
`recommend_cold_start`: the Python parameter aliases the caller's list when
one is passed (`selected_movie_ids if selected_movie_ids is not None else []`
keeps the same object), and `list.extend` mutates it in place, so the caller
observes `seedsUsed`; a caller that passed `None` has no list to observe. -/
def caller_selected_after (selected? : Option (List Int)) (cs : ColdStartResult) :
    Option (List Int) :=
  selected?.map (fun _ => cs.seedsUsed)

/-- Result of `recommend_for_user`. `fellBackToColdStart` records whether
the `user_vector is None` branch ran, i.e. whether the result was produced
by the cold-start fallback call. -/
structure RecResult where
  movies : List Movie
  fellBackToColdStart : Bool
deriving Repr

/-- Embedding of `RecommendationService.recommend_for_user`.

Oracle parameters: `getUserVector` is `self.get_user_vector` (the
EmbeddingStore boundary: `none` when the service is not ready or the user id
is unknown), `sample` is `random.sample` (an injected sampler; the source
draws `top_k` distinct positions from the candidate list), and `search`,
`getVecs`, `table` are as in `recommend_cold_start`.

The whole body runs under `try/except Exception`, so a raised index error
yields `[]` (graceful degradation), and the function is total. -/
def recommend_for_user (getUserVector : Int → Option (List ℚ))
    (search : List ℚ → Nat → Except Unit (List Candidate))
    (getVecs : List Int → List (List ℚ))
    (table : List MovieRow)
    (sample : List Candidate → Nat → List Candidate)
    (user_id : Int) (top_k : Nat) (ab_group : String) : RecResult :=
  match getUserVector user_id with
  | none =>
    let cs := recommend_cold_start getVecs search table none none [] [] none top_k
    match cs.movies with
    | Except.ok movies => ⟨movies, true⟩
    | Except.error _ => ⟨[], true⟩
  | some user_vector =>
    let search_k := if ab_group = "treatment" then top_k * 2 else top_k
    match search user_vector search_k with
    | Except.error _ => ⟨[], false⟩
    | Except.ok recommendations =>
      let recommendations :=
        if ab_group = "treatment" ∧ recommendations.length > top_k then
          sample recommendations top_k
        else recommendations
      let movie_ids := recommendations.map (fun r => r.movie_id)
      let scores := recommendations.map (fun r => (r.movie_id, r.score))
      ⟨enrich_movies table movie_ids scores, false⟩

/-! ## Concrete example data (used by witnesses and examples) -/

/-- A small concrete `movies` table. -/
def exTable : List MovieRow :=
  [⟨1, "Movie A", "Action|Drama", none⟩,
   ⟨2, "Movie B", "Comedy", none⟩,
   ⟨3, "Movie C", "Sci-Fi|Action", none⟩]

/-- A small concrete candidate list with distinct movie ids. -/
def exCands : List Candidate := [⟨1, 9 / 10⟩, ⟨2, 8 / 10⟩, ⟨3, 7 / 10⟩]

/-- A vector-index oracle that honours the requested limit and returns
distinct movie ids. -/
def exSearch : List ℚ → Nat → Except Unit (List Candidate) :=
  fun _ k => Except.ok (exCands.take k)

/-- A sampler oracle drawing the first `k` candidates. -/
def exSample : List Candidate → Nat → List Candidate := fun l k => l.take k

/-- A vector-retrieval oracle returning one fixed vector per id. -/
def exGetVecs : List Int → List (List ℚ) := fun ids => ids.map (fun _ => [1, 0])

/-- An embedding-store oracle knowing every user. -/
def exGetUserVector : Int → Option (List ℚ) := fun _ => some [1, 0]

/-- A neural-search oracle finding two fixed ids. -/
def exSvc : String → Nat → Except Unit (List Int) := fun _ _ => Except.ok [7, 8]

/-- A concrete candidate movie with genres `"Action|Drama"`. -/
def exM1 : Movie := ⟨101, "M1", "Action|Drama", none, 1 / 2⟩

/-- A concrete candidate movie with genres `"Comedy"`. -/
def exM2 : Movie := ⟨102, "M2", "Comedy", none, 9 / 10⟩

/-! ## Supporting lemmas -/

lemma firstDedupAux_mem {α : Type} [DecidableEq α] (l : List α) :
    ∀ (seen : List α) (x : α), x ∈ firstDedupAux seen l → x ∈ l := by
  induction l with
  | nil => intro seen x h; simp [firstDedupAux] at h
  | cons y ys ih =>
    intro seen x h
    by_cases hy : y ∈ seen
    · simp only [firstDedupAux, if_pos hy] at h
      exact List.mem_cons_of_mem _ (ih seen x h)
    · simp only [firstDedupAux, if_neg hy] at h
      rcases List.mem_cons.mp h with h | h
      · exact h ▸ List.mem_cons_self _ _
      · exact List.mem_cons_of_mem _ (ih _ x h)

lemma firstDedupAux_not_mem_seen {α : Type} [DecidableEq α] (l : List α) :
    ∀ (seen : List α) (x : α), x ∈ firstDedupAux seen l → x ∉ seen := by
  induction l with
  | nil => intro seen x h; simp [firstDedupAux] at h
  | cons y ys ih =>
    intro seen x h hxs
    by_cases hy : y ∈ seen
    · simp only [firstDedupAux, if_pos hy] at h
      exact ih seen x h hxs
    · simp only [firstDedupAux, if_neg hy] at h
      rcases List.mem_cons.mp h with h | h
      · exact hy (h ▸ hxs)
      · exact ih (y :: seen) x h (List.mem_cons_of_mem _ hxs)

lemma firstDedupAux_nodup {α : Type} [DecidableEq α] (l : List α) :
    ∀ seen : List α, (firstDedupAux seen l).Nodup := by
  induction l with
  | nil => intro seen; simp [firstDedupAux]
  | cons y ys ih =>
    intro seen
    by_cases hy : y ∈ seen
    · simp only [firstDedupAux, if_pos hy]
      exact ih seen
    · simp only [firstDedupAux, if_neg hy]
      rw [List.nodup_cons]
      refine ⟨fun hmem => ?_, ih (y :: seen)⟩
      exact (firstDedupAux_not_mem_seen ys (y :: seen) y hmem) (List.mem_cons_self _ _)

lemma firstDedup_nodup {α : Type} [DecidableEq α] (l : List α) : (firstDedup l).Nodup :=
  firstDedupAux_nodup l []

lemma firstDedup_subset {α : Type} [DecidableEq α] {l : List α} {x : α}
    (h : x ∈ firstDedup l) : x ∈ l :=
  firstDedupAux_mem l [] x h

lemma find?_id_eq {l : List MovieRow} {k : Int} {r : MovieRow}
    (h : l.find? (fun r => r.id == k) = some r) : r.id = k := by
  have := List.find?_some h
  simpa using this

lemma get_movies_by_ids_id {table : List MovieRow} {ids : List Int} {k : Int}
    {r : MovieRow} (h : get_movies_by_ids table ids k = some r) : r.id = k := by
  unfold get_movies_by_ids at h
  split at h
  · exact find?_id_eq h
  · exact absurd h (by simp)

lemma filterMap_some_map_id {β : Type} (idOf : β → Int) (f : Int → Option β)
    (hid : ∀ k b, f k = some b → idOf b = k) :
    ∀ l : List Int,
      ((l.filterMap f).map idOf) = l.filter (fun k => (f k).isSome) := by
  intro l
  induction l with
  | nil => rfl
  | cons k ks ih =>
    cases h : f k with
    | none => simp [List.filterMap_cons, h, List.filter_cons, ih]
    | some b => simp [List.filterMap_cons, h, List.filter_cons, ih, hid k b h]

lemma enrich_movies_map_id (table : List MovieRow) (ids : List Int)
    (scores : List (Int × ℚ)) :
    (enrich_movies table ids scores).map (fun m => m.id)
      = ids.filter (fun i => (get_movies_by_ids table ids i).isSome) := by
  unfold enrich_movies
  have hid : ∀ (k : Int) (b : Movie),
      (get_movies_by_ids table ids k).map (fun data =>
        (⟨data.id, data.title, data.genres, data.poster_url,
          scoreFor scores k⟩ : Movie)) = some b → b.id = k := by
    intro k b hb
    rcases Option.map_eq_some'.mp hb with ⟨data, hdata, hm⟩
    have hdid : data.id = k := get_movies_by_ids_id hdata
    subst hm
    exact hdid
  rw [filterMap_some_map_id (fun m : Movie => m.id) _ hid ids]
  simp

lemma enrich_movies_mem {table : List MovieRow} {ids : List Int}
    {scores : List (Int × ℚ)} {m : Movie}
    (h : m ∈ enrich_movies table ids scores) :
    m.id ∈ ids ∧ m.score = scoreFor scores m.id := by
  unfold enrich_movies at h
  rcases List.mem_filterMap.mp h with ⟨mid, hmid, heq⟩
  rcases Option.map_eq_some'.mp heq with ⟨data, hdata, hm⟩
  have hid : data.id = mid := get_movies_by_ids_id hdata
  subst hm
  exact ⟨hid ▸ hmid, by simp [hid]⟩

lemma enrich_movies_length_le (table : List MovieRow) (ids : List Int)
    (scores : List (Int × ℚ)) :
    (enrich_movies table ids scores).length ≤ ids.length :=
  List.length_filterMap_le _ _

lemma enrich_movies_nodup {table : List MovieRow} {ids : List Int}
    {scores : List (Int × ℚ)} (h : ids.Nodup) :
    ((enrich_movies table ids scores).map (fun m => m.id)).Nodup := by
  rw [enrich_movies_map_id]
  exact h.filter _

lemma subperm_map {α β : Type} (f : α → β) {l₁ l₂ : List α} (h : l₁ <+~ l₂) :
    l₁.map f <+~ l₂.map f := by
  rcases h with ⟨l, p, s⟩
  exact ⟨l.map f, p.map f, s.map f⟩

lemma subperm_nodup {α : Type} {l₁ l₂ : List α} (h : l₁ <+~ l₂)
    (h₂ : l₂.Nodup) : l₁.Nodup := by
  rcases h with ⟨l, p, s⟩
  exact p.nodup (h₂.sublist s)

lemma pairLe_trans {a b c : ℚ × ℚ} (h₁ : pairLe a b = true) (h₂ : pairLe b c = true) :
    pairLe a c = true := by
  simp only [pairLe, decide_eq_true_eq] at h₁ h₂ ⊢
  rcases h₁ with h | ⟨e1, h⟩ <;> rcases h₂ with g | ⟨e2, g⟩
  · exact Or.inl (lt_trans h g)
  · exact Or.inl (e2 ▸ h)
  · exact Or.inl (e1 ▸ g)
  · exact Or.inr ⟨e1.trans e2, le_trans h g⟩

lemma pairLe_total (a b : ℚ × ℚ) : (pairLe a b || pairLe b a) = true := by
  simp only [pairLe, Bool.or_eq_true, decide_eq_true_eq]
  rcases lt_trichotomy a.1 b.1 with h | h | h
  · exact Or.inl (Or.inl h)
  · rcases le_total a.2 b.2 with g | g
    · exact Or.inl (Or.inr ⟨h, g⟩)
    · exact Or.inr (Or.inr ⟨h.symm, g⟩)
  · exact Or.inr (Or.inl h)

lemma rankedLe_trans (a b c : Movie × ℚ × ℚ) (h₁ : rankedLe a b) (h₂ : rankedLe b c) :
    rankedLe a c :=
  pairLe_trans h₂ h₁

lemma rankedLe_total (a b : Movie × ℚ × ℚ) : (rankedLe a b || rankedLe b a) = true :=
  pairLe_total (b.2.1, b.2.2) (a.2.1, a.2.2)

lemma rankAnnotate_map_fst (ts : Finset String) (movies : List Movie) :
    (movies.filterMap (rankAnnotate ts)).map (fun x => x.1)
      = movies.filter (fun m => decide ((parseGenres m.genres ∩ ts).Nonempty)) := by
  induction movies with
  | nil => rfl
  | cons m ms ih =>
    by_cases hm : 0 < (parseGenres m.genres ∩ ts).card
    · have hm2 : (parseGenres m.genres ∩ ts).Nonempty := Finset.card_pos.mp hm
      simp [List.filterMap_cons, rankAnnotate, hm, hm2, List.filter_cons, ih]
    · have hm2 : ¬ (parseGenres m.genres ∩ ts).Nonempty := by
        rw [← Finset.card_pos]
        exact hm
      simp [List.filterMap_cons, rankAnnotate, hm, hm2, List.filter_cons, ih]

lemma rankAnnotate_mem {ts : Finset String} {x : Movie × ℚ × ℚ} {movies : List Movie}
    (h : x ∈ movies.filterMap (rankAnnotate ts)) :
    x.1 ∈ movies ∧ x.2.1 = jaccardScore x.1 ts ∧ x.2.2 = x.1.score := by
  rcases List.mem_filterMap.mp h with ⟨m, hm, heq⟩
  unfold rankAnnotate at heq
  split at heq
  · cases heq
    exact ⟨hm, rfl, rfl⟩
  · cases heq

lemma rank_perm (movies : List Movie) (tg : List String) (h : tg ≠ []) :
    rank_by_genre_similarity movies tg
      ~ movies.filter
          (fun m => decide ((parseGenres m.genres ∩ targetGenreSet tg).Nonempty)) := by
  unfold rank_by_genre_similarity
  rw [if_neg (by simpa using h)]
  calc ((movies.filterMap (rankAnnotate (targetGenreSet tg))).mergeSort
          rankedLe).map (fun x => x.1)
      ~ (movies.filterMap (rankAnnotate (targetGenreSet tg))).map (fun x => x.1) :=
        (List.mergeSort_perm _ _).map _
    _ = _ := rankAnnotate_map_fst _ _

lemma rank_mem_sub {movies : List Movie} {tg : List String} {m : Movie}
    (h : m ∈ rank_by_genre_similarity movies tg) : m ∈ movies := by
  by_cases htg : tg = []
  · subst htg
    unfold rank_by_genre_similarity at h
    simpa using h
  · have h2 := (rank_perm movies tg htg).mem_iff.mp h
    exact (List.mem_filter.mp h2).1

lemma rank_sorted (movies : List Movie) (tg : List String) (h : tg ≠ []) :
    (rank_by_genre_similarity movies tg).Pairwise (fun x y =>
      jaccardScore y (targetGenreSet tg) < jaccardScore x (targetGenreSet tg)
      ∨ (jaccardScore y (targetGenreSet tg) = jaccardScore x (targetGenreSet tg)
          ∧ y.score ≤ x.score)) := by
  unfold rank_by_genre_similarity
  rw [if_neg (by simpa using h)]
  rw [List.pairwise_map]
  have hsorted :
      ((movies.filterMap (rankAnnotate (targetGenreSet tg))).mergeSort
        rankedLe).Pairwise (fun a b => rankedLe a b = true) :=
    List.sorted_mergeSort rankedLe_trans rankedLe_total _
  refine List.Pairwise.imp_of_mem ?_ hsorted
  intro a b ha hb hab
  have sa := rankAnnotate_mem (List.mem_mergeSort.mp ha)
  have sb := rankAnnotate_mem (List.mem_mergeSort.mp hb)
  simp only [rankedLe, pairLe, decide_eq_true_eq] at hab
  rcases hab with hlt | ⟨e, hle⟩
  · left
    rw [← sa.2.1, ← sb.2.1]
    exact hlt
  · right
    constructor
    · rw [← sa.2.1, ← sb.2.1]
      exact e
    · rw [← sa.2.2, ← sb.2.2]
      exact hle

lemma addVec_getD (a b : List ℚ) (i : Nat) (ha : i < a.length) (hb : i < b.length) :
    (addVec a b).getD i 0 = a.getD i 0 + b.getD i 0 := by
  have hlen : i < (addVec a b).length := by
    simp only [addVec, List.length_zipWith]
    omega
  rw [List.getD_eq_getElem _ _ hlen, List.getD_eq_getElem _ _ ha,
    List.getD_eq_getElem _ _ hb]
  simp [addVec]

lemma foldl_addVec (D : Nat) (vs : List (List ℚ)) :
    ∀ v : List ℚ, v.length = D → (∀ w ∈ vs, w.length = D) →
      (vs.foldl addVec v).length = D
      ∧ ∀ i, i < D → (vs.foldl addVec v).getD i 0
          = v.getD i 0 + (vs.map (fun w => w.getD i 0)).sum := by
  induction vs with
  | nil =>
    intro v hv _
    exact ⟨hv, fun i hi => by simp⟩
  | cons w ws ih =>
    intro v hv hws
    have hw : w.length = D := hws w (List.mem_cons_self _ _)
    have hvw : (addVec v w).length = D := by
      simp only [addVec, List.length_zipWith]
      omega
    obtain ⟨hl, hg⟩ := ih (addVec v w) hvw (fun u hu => hws u (List.mem_cons_of_mem _ hu))
    refine ⟨hl, fun i hi => ?_⟩
    rw [List.foldl_cons, hg i hi,
      addVec_getD v w i (by omega) (by omega)]
    simp [add_assoc]

lemma compute_centroid_single (v : List ℚ) : compute_centroid [v] = v := by
  simp [compute_centroid]

lemma compute_centroid_spec (vectors : List (List ℚ)) (D : Nat) (hne : vectors ≠ [])
    (hlen : ∀ w ∈ vectors, w.length = D) :
    (compute_centroid vectors).length = D
    ∧ ∀ i, i < D → (compute_centroid vectors).getD i 0
        = (vectors.map (fun w => w.getD i 0)).sum / ((vectors.length : ℚ)) := by
  cases vectors with
  | nil => exact absurd rfl hne
  | cons v vs =>
    obtain ⟨hl, hg⟩ := foldl_addVec D vs v (hlen v (List.mem_cons_self _ _))
      (fun u hu => hlen u (List.mem_cons_of_mem _ hu))
    constructor
    · simp [compute_centroid, hl]
    · intro i hi
      have hi2 : i < ((vs.foldl addVec v).map
          (fun x => x / (((v :: vs).length : ℚ)))).length := by
        simp only [List.length_map]
        omega
      have hi3 : i < (vs.foldl addVec v).length := by omega
      simp only [compute_centroid]
      rw [List.getD_eq_getElem _ _ hi2, List.getElem_map,
        ← List.getD_eq_getElem _ 0 hi3, hg i hi]
      simp

lemma cold_start_movies_eq_vector (getVecs : List Int → List (List ℚ))
    (search : List ℚ → Nat → Except Unit (List Candidate))
    (table : List MovieRow) (sel1 : List Int) (genres keywords : List String)
    (top_k : Nat) (results : List Candidate)
    (hsel : sel1 ≠ []) (hvec : getVecs sel1 ≠ [])
    (hres : search (compute_centroid (getVecs sel1)) (top_k * 2) = Except.ok results) :
    cold_start_movies getVecs search table sel1 genres keywords top_k
      = Except.ok ((if genres.isEmpty = false then
            rank_by_genre_similarity
              (enrich_movies table
                ((results.filter (fun r => ¬ (r.movie_id ∈ sel1))).map
                  (fun r => r.movie_id))
                (results.map (fun r => (r.movie_id, r.score)))) genres
          else
            enrich_movies table
              ((results.filter (fun r => ¬ (r.movie_id ∈ sel1))).map
                (fun r => r.movie_id))
              (results.map (fun r => (r.movie_id, r.score)))).take top_k) := by
  have h1 : sel1.isEmpty = false := by simpa using hsel
  have h2 : (getVecs sel1).isEmpty = false := by simpa using hvec
  simp [cold_start_movies, h1, h2, hres]

lemma recommend_cold_start_defaults (getVecs : List Int → List (List ℚ))
    (search : List ℚ → Nat → Except Unit (List Candidate))
    (table : List MovieRow) (top_k : Nat) :
    recommend_cold_start getVecs search table none none [] [] none top_k
      = ⟨Except.ok [], []⟩ := rfl

lemma values_bound (table : List MovieRow) (mids : List Int) :
    (get_movies_by_ids_values table mids).length
        ≤ (firstDedup ((table.filter (fun r => r.id ∈ mids)).map
            (fun r => r.id))).length
    ∧ ((get_movies_by_ids_values table mids).map (fun r => r.id)).Nodup := by
  have hid : ∀ (k : Int) (b : MovieRow),
      (table.filter (fun r => r.id ∈ mids)).reverse.find?
        (fun r => r.id == k) = some b → b.id = k :=
    fun k b hb => find?_id_eq hb
  have hkeys : (firstDedup ((table.filter (fun r => r.id ∈ mids)).map
      (fun r => r.id))).Nodup := firstDedup_nodup _
  have hmap : ((get_movies_by_ids_values table mids).map (fun r => r.id))
      = (firstDedup ((table.filter (fun r => r.id ∈ mids)).map (fun r => r.id))).filter
          (fun k => ((table.filter (fun r => r.id ∈ mids)).reverse.find?
            (fun r => r.id == k)).isSome) := by
    unfold get_movies_by_ids_values
    exact filterMap_some_map_id (fun r : MovieRow => r.id) _ hid _
  constructor
  · have h1 := congrArg List.length hmap
    rw [List.length_map] at h1
    rw [h1]
    exact List.length_filter_le _ _
  · rw [hmap]
    exact hkeys.filter _

lemma firstDedup_length_le_of_subset {keys mids : List Int}
    (hnodup : keys.Nodup) (hsub : ∀ x ∈ keys, x ∈ mids) :
    keys.length ≤ mids.length :=
  (hnodup.subperm hsub).length_le

lemma rank_map_id_nodup {movies : List Movie} {tg : List String}
    (h : (movies.map (fun m => m.id)).Nodup) :
    ((rank_by_genre_similarity movies tg).map (fun m => m.id)).Nodup := by
  by_cases htg : tg = []
  · subst htg
    unfold rank_by_genre_similarity
    simpa using h
  · have hp := (rank_perm movies tg htg).map (fun m => m.id)
    have hfil : ((movies.filter (fun m =>
        decide ((parseGenres m.genres ∩ targetGenreSet tg).Nonempty))).map
          (fun m => m.id)).Nodup :=
      h.sublist ((List.filter_sublist _).map _)
    exact hp.symm.nodup hfil

/-! ## Claim theorems -/

/-- C1: the claim states that the cache key of a cached known-user
recommendation call is `"rec:<user_id>"`, so distinct user ids never share a
key. On the code this fails: the `cache_result` wrapper keys on `args[0]`,
and for the bound method `recommend_for_user` the first positional argument
is the service object itself, so two calls for distinct user ids on the same
service instance produce the same key, which is also never `"rec:1"`. -/
theorem C1_cache_key_ignores_user_id :
    recommend_for_user_cache_key "<RecommendationService object at 0x7f2a>" 1
      = recommend_for_user_cache_key "<RecommendationService object at 0x7f2a>" 2
    ∧ recommend_for_user_cache_key "<RecommendationService object at 0x7f2a>" 1
        ≠ "rec:1"
    ∧ recommend_for_user_cache_key "<RecommendationService object at 0x7f2a>" 1
        = "rec:" ++ "<RecommendationService object at 0x7f2a>" := by
  refine ⟨rfl, ?_, rfl⟩
  decide

/-- C8: experiment assignment is a pure deterministic function of the
subject id: repeated calls agree, the result is one of `"control"` and
`"treatment"`, and it is `"control"` exactly when the SHA-256 digest of the
decimal rendering of the id, read as a number, is even. -/
theorem C8_experiment_assignment (user_id : Int) :
    get_user_experiment_group user_id = get_user_experiment_group user_id
    ∧ (get_user_experiment_group user_id = "control"
        ∨ get_user_experiment_group user_id = "treatment")
    ∧ (get_user_experiment_group user_id = "control"
        ↔ digestNat (sha256 (pyStrBytes (toString user_id))) % 2 = 0) := by
  refine ⟨rfl, ?_, ?_⟩
  · by_cases h0 : digestNat (sha256 (pyStrBytes (toString user_id))) % 2 = 0
    · left
      simp [get_user_experiment_group, ENABLE_AB_TESTING, h0]
    · right
      simp [get_user_experiment_group, ENABLE_AB_TESTING, h0]
  · constructor
    · intro h
      by_contra h0
      simp [get_user_experiment_group, ENABLE_AB_TESTING, h0] at h
    · intro h0
      simp [get_user_experiment_group, ENABLE_AB_TESTING, h0]

/-- C9: the centroid is the componentwise arithmetic mean: a single vector
is its own centroid, the centroid of uniform-length vectors has the common
length and carries the componentwise mean at every index, and the centroid
of `[[1,2,3],[4,5,6],[7,8,9]]` is `[4,5,6]`. -/
theorem C9_centroid_mean (v : List ℚ) (vectors : List (List ℚ)) (D : Nat)
    (hne : vectors ≠ []) (hlen : ∀ w ∈ vectors, w.length = D) :
    compute_centroid [v] = v
    ∧ (compute_centroid vectors).length = D
    ∧ (∀ i, i < D → (compute_centroid vectors).getD i 0
        = (vectors.map (fun w => w.getD i 0)).sum / ((vectors.length : ℚ)))
    ∧ compute_centroid [[1, 2, 3], [4, 5, 6], [7, 8, 9]] = [4, 5, 6] := by
  obtain ⟨h1, h2⟩ := compute_centroid_spec vectors D hne hlen
  refine ⟨compute_centroid_single v, h1, h2, ?_⟩
  norm_num [compute_centroid, addVec, List.foldl, List.zipWith]

/-- C9 witness: the general mean statement evaluated on `[[1,2],[3,4]]`. -/
theorem C9_centroid_mean_witness :
    ([[1, 2], [3, 4]] : List (List ℚ)) ≠ []
    ∧ (compute_centroid [[1, 2], [3, 4]]).getD 0 0
        = (([[1, 2], [3, 4]] : List (List ℚ)).map (fun w => w.getD 0 0)).sum
            / ((([[1, 2], [3, 4]] : List (List ℚ)).length : ℚ)) := by
  refine ⟨by decide, ?_⟩
  exact (C9_centroid_mean [1] [[1, 2], [3, 4]] 2 (by decide)
    (by decide)).2.2.1 0 (by decide)

/-- C5: the cached wrapper is cache-aside with fail-open: a hit returns the
stored value with zero invocations and an unchanged store; a miss invokes
the computation once, stores the result under the key with the TTL, and
returns it; a read error computes fresh and returns it (writing when the
write succeeds); a write error on a miss returns the fresh result with the
store unchanged. No case raises: the wrapper is total. -/
theorem C5_cache_aside {α : Type} (st : List (String × α × Nat)) (key : String)
    (ttl : Nat) (c : α) (writeOk : Bool) :
    (∀ v, cacheGet st key = some v →
      cachedCall true true writeOk key ttl c st = (v, 0, st))
    ∧ (cacheGet st key = none →
        cachedCall true true true key ttl c st = (c, 1, cacheSet st key c ttl)
        ∧ cacheGet (cacheSet st key c ttl) key = some c)
    ∧ (cachedCall true false writeOk key ttl c st
        = (c, 1, if writeOk = true then cacheSet st key c ttl else st))
    ∧ (cacheGet st key = none →
        cachedCall true true false key ttl c st = (c, 1, st)) := by
  refine ⟨?_, ?_, ?_, ?_⟩
  · intro v hv
    simp [cachedCall, hv]
  · intro hm
    constructor
    · simp [cachedCall, hm]
    · simp [cacheGet, cacheSet]
  · cases writeOk <;> simp [cachedCall]
  · intro hm
    simp [cachedCall, hm]

/-- C5 witness: the hit and miss cases evaluated on concrete stores. -/
theorem C5_cache_aside_witness :
    cacheGet [("rec:1", (5 : Nat), 300)] "rec:1" = some 5
    ∧ cachedCall true true true "rec:1" 300 (7 : Nat) [("rec:1", 5, 300)]
        = (5, 0, [("rec:1", 5, 300)])
    ∧ cacheGet ([] : List (String × Nat × Nat)) "rec:2" = none
    ∧ cachedCall true true true "rec:2" 300 (7 : Nat) []
        = (7, 1, cacheSet [] "rec:2" 7 300) := by
  refine ⟨rfl, ?_, rfl, ?_⟩
  · exact (C5_cache_aside [("rec:1", (5 : Nat), 300)] "rec:1" 300 7 true).1 5 rfl
  · exact ((C5_cache_aside ([] : List (String × Nat × Nat)) "rec:2" 300 7
      true).2.1 rfl).1

/-- C10: when a non-empty list, a non-empty text query and a search service
are all supplied and the text search succeeds with at least one id, the
caller's `selected_movie_ids` list object is mutated in place by appending
the found ids — the caller observes `l ++ ids`, which differs from `l`. -/
theorem C10_extend_mutates_caller (getVecs : List Int → List (List ℚ))
    (search : List ℚ → Nat → Except Unit (List Candidate))
    (table : List MovieRow) (svc : String → Nat → Except Unit (List Int))
    (l : List Int) (q : String) (ids : List Int)
    (genres keywords : List String) (top_k : Nat)
    (hl : l ≠ []) (hq : q ≠ "") (hsvc : svc q 5 = Except.ok ids)
    (hids : ids ≠ []) :
    caller_selected_after (some l)
        (recommend_cold_start getVecs search table (some svc) (some l) genres
          keywords (some q) top_k)
      = some (l ++ ids)
    ∧ l ++ ids ≠ l := by
  constructor
  · simp [caller_selected_after, recommend_cold_start, hq, hsvc]
  · intro hcontra
    have hlen := congrArg List.length hcontra
    rw [List.length_append] at hlen
    have hzero : ids.length = 0 := by omega
    exact hids (List.length_eq_zero.mp hzero)

/-- C10 witness: the mutation observed on concrete oracles. -/
theorem C10_extend_mutates_caller_witness :
    caller_selected_after (some [1])
        (recommend_cold_start exGetVecs exSearch exTable (some exSvc) (some [1])
          [] [] (some "space adventures") 10)
      = some ([1] ++ [7, 8])
    ∧ ([1] : List Int) ++ [7, 8] ≠ [1] :=
  C10_extend_mutates_caller exGetVecs exSearch exTable exSvc [1]
    "space adventures" [7, 8] [] [] 10 (by decide) (by decide) rfl (by decide)

/-- C6: enrichment preserves the input id order (its output ids are exactly
the input ids filtered to those the metadata store knows), attaches to each
output movie the score mapped to its id, never lengthens the list, and on
the concrete example ids `[3,1,2]` with scores `0.9/0.8/0.7` returns the
movies in that order with those scores; an id absent from the store (`9`) is
silently omitted. -/
theorem C6_enrichment_order_and_scores (table : List MovieRow) (ids : List Int)
    (scores : List (Int × ℚ)) :
    ((enrich_movies table ids scores).map (fun m => m.id)
        = ids.filter (fun i => (get_movies_by_ids table ids i).isSome))
    ∧ (∀ m ∈ enrich_movies table ids scores, m.score = scoreFor scores m.id)
    ∧ (enrich_movies table ids scores).length ≤ ids.length
    ∧ enrich_movies exTable [3, 1, 2] [(3, 9 / 10), (1, 8 / 10), (2, 7 / 10)]
        = [⟨3, "Movie C", "Sci-Fi|Action", none, 9 / 10⟩,
           ⟨1, "Movie A", "Action|Drama", none, 8 / 10⟩,
           ⟨2, "Movie B", "Comedy", none, 7 / 10⟩]
    ∧ enrich_movies exTable [3, 9, 1] [(3, 9 / 10), (1, 8 / 10)]
        = [⟨3, "Movie C", "Sci-Fi|Action", none, 9 / 10⟩,
           ⟨1, "Movie A", "Action|Drama", none, 8 / 10⟩] := by
  refine ⟨enrich_movies_map_id table ids scores,
    fun m hm => (enrich_movies_mem hm).2,
    enrich_movies_length_le table ids scores, ?_, ?_⟩
  · simp [enrich_movies, get_movies_by_ids, exTable, scoreFor, dictLookup,
      List.find?]
  · simp [enrich_movies, get_movies_by_ids, exTable, scoreFor, dictLookup,
      List.find?]

/-- C6 witness: the per-movie score statement evaluated on the example. -/
theorem C6_enrichment_witness :
    (⟨3, "Movie C", "Sci-Fi|Action", none, (9 : ℚ) / 10⟩ : Movie)
        ∈ enrich_movies exTable [3, 1, 2] [(3, 9 / 10), (1, 8 / 10), (2, 7 / 10)]
    ∧ (⟨3, "Movie C", "Sci-Fi|Action", none, (9 : ℚ) / 10⟩ : Movie).score
        = scoreFor [(3, 9 / 10), (1, 8 / 10), (2, 7 / 10)] 3 := by
  have hmem : (⟨3, "Movie C", "Sci-Fi|Action", none, (9 : ℚ) / 10⟩ : Movie)
      ∈ enrich_movies exTable [3, 1, 2] [(3, 9 / 10), (1, 8 / 10), (2, 7 / 10)] := by
    simp [enrich_movies, get_movies_by_ids, exTable, scoreFor, dictLookup,
      List.find?]
  exact ⟨hmem, (C6_enrichment_order_and_scores exTable [3, 1, 2]
    [(3, 9 / 10), (1, 8 / 10), (2, 7 / 10)]).2.1 _ hmem⟩

/-- C2 counterexample: a user whose embedding vector is present and whose
index query returns the empty candidate list. The claim says the call
transitions to the cold-start fallback; in the code it does not — the empty
result flows through enrichment and the call returns an empty list with the
fallback never invoked. -/
theorem C2_counterexample :
    (recommend_for_user exGetUserVector (fun _ _ => Except.ok []) exGetVecs
      exTable exSample 7 10 "control").fellBackToColdStart = false
    ∧ (recommend_for_user exGetUserVector (fun _ _ => Except.ok []) exGetVecs
      exTable exSample 7 10 "control").movies = [] := by
  exact ⟨rfl, rfl⟩

/-- C2 (amended): the cold-start fallback runs exactly when the user's
embedding vector is absent; when the vector is present, the fallback never
runs, and an empty or failing index query yields an empty recommendation
list (the exception is absorbed by the graceful-degradation handler). -/
theorem C2_fallback_only_on_missing_vector (gv : Int → Option (List ℚ))
    (search : List ℚ → Nat → Except Unit (List Candidate))
    (getVecs : List Int → List (List ℚ)) (table : List MovieRow)
    (sample : List Candidate → Nat → List Candidate)
    (user_id : Int) (top_k : Nat) (ab_group : String) :
    (gv user_id = none →
      (recommend_for_user gv search getVecs table sample user_id top_k
        ab_group).fellBackToColdStart = true)
    ∧ (∀ v, gv user_id = some v →
        (recommend_for_user gv search getVecs table sample user_id top_k
          ab_group).fellBackToColdStart = false
        ∧ (search v (if ab_group = "treatment" then top_k * 2 else top_k)
              = Except.ok [] →
            (recommend_for_user gv search getVecs table sample user_id top_k
              ab_group).movies = [])
        ∧ (search v (if ab_group = "treatment" then top_k * 2 else top_k)
              = Except.error () →
            (recommend_for_user gv search getVecs table sample user_id top_k
              ab_group).movies = [])) := by
  constructor
  · intro hv
    simp only [recommend_for_user, hv]
    split <;> rfl
  · intro v hv
    refine ⟨?_, ?_, ?_⟩
    · cases hs : search v (if ab_group = "treatment" then top_k * 2 else top_k) with
      | error e => simp [recommend_for_user, hv, hs]
      | ok recs => simp [recommend_for_user, hv, hs]
    · intro hs
      simp [recommend_for_user, hv, hs, enrich_movies]
    · intro hs
      simp [recommend_for_user, hv, hs]

/-- C2 witness: both directions of the amended statement at concrete
inputs — a missing vector falls back, a present vector with an empty index
result does not. -/
theorem C2_fallback_witness :
    (recommend_for_user (fun _ => none) exSearch exGetVecs exTable exSample 3 10
        "control").fellBackToColdStart = true
    ∧ (recommend_for_user exGetUserVector (fun _ _ => Except.ok []) exGetVecs
        exTable exSample 3 10 "control").fellBackToColdStart = false := by
  constructor
  · exact (C2_fallback_only_on_missing_vector (fun _ => none) exSearch exGetVecs
      exTable exSample 3 10 "control").1 rfl
  · exact ((C2_fallback_only_on_missing_vector exGetUserVector
      (fun _ _ => Except.ok []) exGetVecs exTable exSample 3 10 "control").2
      [1, 0] rfl).1

/-- C3: for a non-empty target genre list, genre re-ranking returns a
permutation of exactly those candidates whose (lower-cased, pipe-parsed)
genre set meets the target set; the output is sorted by Jaccard score
descending, ties by original vector score descending; each candidate's
Jaccard score is intersection over union; target `{Action, Sci-Fi}` scores
the candidate `"Action|Drama"` at `1/3` and drops the candidate `"Comedy"`;
and the caller (`recommend_cold_start`, through `cold_start_movies`)
truncates the ranked list to `top_k`. -/
theorem C3_jaccard_ranking (movies : List Movie) (target_genres : List String)
    (h : target_genres ≠ []) :
    (rank_by_genre_similarity movies target_genres
        ~ movies.filter (fun m =>
            decide ((parseGenres m.genres ∩ targetGenreSet target_genres).Nonempty)))
    ∧ ((rank_by_genre_similarity movies target_genres).Pairwise (fun x y =>
        jaccardScore y (targetGenreSet target_genres)
            < jaccardScore x (targetGenreSet target_genres)
        ∨ (jaccardScore y (targetGenreSet target_genres)
              = jaccardScore x (targetGenreSet target_genres)
            ∧ y.score ≤ x.score)))
    ∧ (∀ m : Movie, jaccardScore m (targetGenreSet target_genres)
        = (((parseGenres m.genres ∩ targetGenreSet target_genres).card : ℚ))
            / (((parseGenres m.genres ∪ targetGenreSet target_genres).card : ℚ)))
    ∧ jaccardScore exM1 (targetGenreSet ["Action", "Sci-Fi"]) = 1 / 3
    ∧ rank_by_genre_similarity [exM1, exM2] ["Action", "Sci-Fi"] = [exM1]
    ∧ (∀ (getVecs : List Int → List (List ℚ))
        (search : List ℚ → Nat → Except Unit (List Candidate))
        (table : List MovieRow) (sel1 : List Int) (keywords : List String)
        (top_k : Nat) (results : List Candidate),
        sel1 ≠ [] → getVecs sel1 ≠ [] →
        search (compute_centroid (getVecs sel1)) (top_k * 2) = Except.ok results →
        cold_start_movies getVecs search table sel1 target_genres keywords top_k
          = Except.ok ((rank_by_genre_similarity
              (enrich_movies table
                ((results.filter (fun r => ¬ (r.movie_id ∈ sel1))).map
                  (fun r => r.movie_id))
                (results.map (fun r => (r.movie_id, r.score)))) target_genres).take
              top_k)) := by
  have hg : target_genres.isEmpty = false := by simpa using h
  refine ⟨rank_perm movies target_genres h, rank_sorted movies target_genres h,
    ?_, ?_, ?_, ?_⟩
  · intro m
    have hts : (targetGenreSet target_genres).Nonempty := by
      cases target_genres with
      | nil => exact absurd rfl h
      | cons g gs =>
        exact ⟨String.mk (lowerChars g.toList), by simp [targetGenreSet]⟩
    have hunion : 0 < (parseGenres m.genres ∪ targetGenreSet target_genres).card := by
      refine Finset.card_pos.mpr ?_
      rcases hts with ⟨x, hx⟩
      exact ⟨x, Finset.mem_union_right _ hx⟩
    simp [jaccardScore, hunion]
  · have hi : (parseGenres "Action|Drama"
        ∩ targetGenreSet ["Action", "Sci-Fi"]).card = 1 := by decide
    have hu : (parseGenres "Action|Drama"
        ∪ targetGenreSet ["Action", "Sci-Fi"]).card = 3 := by decide
    simp [jaccardScore, exM1, hi, hu]
  · have h1 : (parseGenres "Action|Drama"
        ∩ targetGenreSet ["Action", "Sci-Fi"]).card = 1 := by decide
    have h2 : (parseGenres "Comedy"
        ∩ targetGenreSet ["Action", "Sci-Fi"]).card = 0 := by decide
    simp [rank_by_genre_similarity, rankAnnotate, exM1, exM2, h1, h2,
      List.filterMap_cons]
  · intro getVecs search table sel1 keywords top_k results hsel hvec hres
    rw [cold_start_movies_eq_vector getVecs search table sel1 target_genres
      keywords top_k results hsel hvec hres, if_pos hg]

/-- C3 witness: the ranking statement evaluated on the two concrete
candidates against target genres `["Action", "Sci-Fi"]`. -/
theorem C3_jaccard_ranking_witness :
    (["Action", "Sci-Fi"] : List String) ≠ []
    ∧ jaccardScore exM1 (targetGenreSet ["Action", "Sci-Fi"]) = 1 / 3
    ∧ rank_by_genre_similarity [exM1, exM2] ["Action", "Sci-Fi"] = [exM1] := by
  have h := C3_jaccard_ranking [exM1, exM2] ["Action", "Sci-Fi"] (by decide)
  exact ⟨by decide, h.2.2.2.1, h.2.2.2.2.1⟩

lemma cold_start_movies_eq_vector_error (getVecs : List Int → List (List ℚ))
    (search : List ℚ → Nat → Except Unit (List Candidate))
    (table : List MovieRow) (sel1 : List Int) (genres keywords : List String)
    (top_k : Nat) (e : Unit)
    (hsel : sel1 ≠ []) (hvec : getVecs sel1 ≠ [])
    (hres : search (compute_centroid (getVecs sel1)) (top_k * 2)
      = Except.error e) :
    cold_start_movies getVecs search table sel1 genres keywords top_k
      = Except.error e := by
  have h1 : sel1.isEmpty = false := by simpa using hsel
  have h2 : (getVecs sel1).isEmpty = false := by simpa using hvec
  simp [cold_start_movies, h1, h2, hres]

lemma cold_start_movies_seed_exclusion (getVecs : List Int → List (List ℚ))
    (search : List ℚ → Nat → Except Unit (List Candidate))
    (table : List MovieRow) (sel1 : List Int) (genres keywords : List String)
    (top_k : Nat) (out : List Movie)
    (hsel : sel1 ≠ []) (hvec : getVecs sel1 ≠ [])
    (h : cold_start_movies getVecs search table sel1 genres keywords top_k
      = Except.ok out) :
    ∀ m ∈ out, ¬ (m.id ∈ sel1) := by
  intro m hm hmem
  cases hres : search (compute_centroid (getVecs sel1)) (top_k * 2) with
  | error e =>
    rw [cold_start_movies_eq_vector_error getVecs search table sel1 genres
      keywords top_k e hsel hvec hres] at h
    simp at h
  | ok results =>
    rw [cold_start_movies_eq_vector getVecs search table sel1 genres keywords
      top_k results hsel hvec hres] at h
    have hout := Except.ok.inj h
    rw [← hout] at hm
    have hm2 := List.mem_of_mem_take hm
    have hm3 : m ∈ enrich_movies table
        ((results.filter (fun r => ¬ (r.movie_id ∈ sel1))).map
          (fun r => r.movie_id))
        (results.map (fun r => (r.movie_id, r.score))) := by
      by_cases hg : genres.isEmpty = false
      · rw [if_pos hg] at hm2
        exact rank_mem_sub hm2
      · rw [if_neg hg] at hm2
        exact hm2
    have hid := (enrich_movies_mem hm3).1
    rcases List.mem_map.mp hid with ⟨r, hr, hrid⟩
    have hfil := (List.mem_filter.mp hr).2
    rw [← hrid] at hmem
    simp at hfil
    exact hfil hmem

/-- C4: a cold-start-by-vector request (the final seed list — explicit seeds
plus text-search contributions — is non-empty and resolves to at least one
vector) never returns a movie whose id is one of those seeds. -/
theorem C4_seed_exclusion (getVecs : List Int → List (List ℚ))
    (search : List ℚ → Nat → Except Unit (List Candidate))
    (table : List MovieRow)
    (svc : Option (String → Nat → Except Unit (List Int)))
    (selected? : Option (List Int)) (genres keywords : List String)
    (query : Option String) (top_k : Nat) (out : List Movie)
    (hout : (recommend_cold_start getVecs search table svc selected? genres
        keywords query top_k).movies = Except.ok out)
    (hsel : (recommend_cold_start getVecs search table svc selected? genres
        keywords query top_k).seedsUsed ≠ [])
    (hvec : getVecs ((recommend_cold_start getVecs search table svc selected?
        genres keywords query top_k).seedsUsed) ≠ []) :
    ∀ m ∈ out, ¬ (m.id ∈ (recommend_cold_start getVecs search table svc
        selected? genres keywords query top_k).seedsUsed) :=
  cold_start_movies_seed_exclusion getVecs search table
    ((recommend_cold_start getVecs search table svc selected? genres keywords
      query top_k).seedsUsed) genres keywords top_k out hsel hvec hout

/-- C4 witness: seed id `1` is filtered out of the concrete cold-start
result even though the index returned it as its top candidate. -/
theorem C4_seed_exclusion_witness :
    (recommend_cold_start exGetVecs exSearch exTable none (some [1]) [] []
        none 2).movies
      = Except.ok [⟨2, "Movie B", "Comedy", none, 8 / 10⟩,
                   ⟨3, "Movie C", "Sci-Fi|Action", none, 7 / 10⟩]
    ∧ ∀ m ∈ [(⟨2, "Movie B", "Comedy", none, 8 / 10⟩ : Movie),
             ⟨3, "Movie C", "Sci-Fi|Action", none, 7 / 10⟩],
        ¬ (m.id ∈ (recommend_cold_start exGetVecs exSearch exTable none
            (some [1]) [] [] none 2).seedsUsed) := by
  have hmov : (recommend_cold_start exGetVecs exSearch exTable none (some [1])
      [] [] none 2).movies
      = Except.ok [⟨2, "Movie B", "Comedy", none, 8 / 10⟩,
                   ⟨3, "Movie C", "Sci-Fi|Action", none, 7 / 10⟩] := by
    simp [recommend_cold_start, cold_start_movies, exGetVecs, exSearch, exCands,
      enrich_movies, get_movies_by_ids, exTable, scoreFor, dictLookup,
      List.find?, compute_centroid, addVec]
  exact ⟨hmov, C4_seed_exclusion exGetVecs exSearch exTable none (some [1])
    [] [] none 2 _ hmov (by decide) (by decide)⟩

lemma cold_start_movies_criteria_eq (getVecs : List Int → List (List ℚ))
    (search : List ℚ → Nat → Except Unit (List Candidate))
    (table : List MovieRow) (sel1 : List Int) (genres keywords : List String)
    (top_k : Nat)
    (hempty : ((if sel1.isEmpty then [] else getVecs sel1) : List (List ℚ)).isEmpty
      = true) :
    cold_start_movies getVecs search table sel1 genres keywords top_k
      = (if ((if genres.isEmpty = false ∨ keywords.isEmpty = false then
            firstDedup (find_movies_by_criteria table genres keywords 50)
          else []) : List Int).isEmpty = false then
          Except.ok ((get_movies_by_ids_values table
            (((if genres.isEmpty = false ∨ keywords.isEmpty = false then
              firstDedup (find_movies_by_criteria table genres keywords 50)
            else []) : List Int).take top_k)).map rowToMovie)
        else Except.ok []) := by
  simp only [cold_start_movies, hempty, Bool.true_eq_false, if_false]

lemma criteria_values_bound (table : List MovieRow) (candIds : List Int)
    (hnodup : candIds.Nodup) :
    ((get_movies_by_ids_values table candIds).map rowToMovie).length
        ≤ candIds.length
    ∧ ((((get_movies_by_ids_values table candIds).map rowToMovie)).map
        (fun m => m.id)).Nodup := by
  obtain ⟨hlen, hnd⟩ := values_bound table candIds
  constructor
  · rw [List.length_map]
    refine le_trans hlen ?_
    refine firstDedup_length_le_of_subset (firstDedup_nodup _) ?_
    intro x hx
    rcases List.mem_map.mp (firstDedup_subset hx) with ⟨r, hr, hxr⟩
    have h2 := (List.mem_filter.mp hr).2
    rw [← hxr]
    simpa using h2
  · have hcomp : ((((get_movies_by_ids_values table candIds).map rowToMovie)).map
        (fun m => m.id))
        = ((get_movies_by_ids_values table candIds).map (fun r => r.id)) := by
      rw [List.map_map]
      rfl
    rw [hcomp]
    exact hnd

lemma cold_start_movies_bound (getVecs : List Int → List (List ℚ))
    (search : List ℚ → Nat → Except Unit (List Candidate))
    (table : List MovieRow) (sel1 : List Int) (genres keywords : List String)
    (top_k : Nat) (out : List Movie)
    (hsearch : ∀ v k r, search v k = Except.ok r →
      r.length ≤ k ∧ (r.map (fun c => c.movie_id)).Nodup)
    (h : cold_start_movies getVecs search table sel1 genres keywords top_k
      = Except.ok out) :
    out.length ≤ top_k ∧ (out.map (fun m => m.id)).Nodup := by
  by_cases hpath : sel1 ≠ [] ∧ getVecs sel1 ≠ []
  · obtain ⟨hsel, hvec⟩ := hpath
    cases hres : search (compute_centroid (getVecs sel1)) (top_k * 2) with
    | error e =>
      rw [cold_start_movies_eq_vector_error getVecs search table sel1 genres
        keywords top_k e hsel hvec hres] at h
      simp at h
    | ok results =>
      rw [cold_start_movies_eq_vector getVecs search table sel1 genres keywords
        top_k results hsel hvec hres] at h
      have hout := Except.ok.inj h
      obtain ⟨hlim, hnd⟩ := hsearch _ _ _ hres
      have hrecnd : (((results.filter (fun r => ¬ (r.movie_id ∈ sel1))).map
          (fun r => r.movie_id))).Nodup :=
        hnd.sublist ((List.filter_sublist _).map _)
      have hennd := @enrich_movies_nodup table
        ((results.filter (fun r => ¬ (r.movie_id ∈ sel1))).map
          (fun r => r.movie_id))
        (results.map (fun r => (r.movie_id, r.score))) hrecnd
      constructor
      · rw [← hout, List.length_take]
        exact Nat.min_le_left _ _
      · rw [← hout, List.map_take]
        by_cases hg : genres.isEmpty = false
        · rw [if_pos hg]
          exact (rank_map_id_nodup hennd).sublist (List.take_sublist _ _)
        · rw [if_neg hg]
          exact hennd.sublist (List.take_sublist _ _)
  · have hempty : ((if sel1.isEmpty then [] else getVecs sel1)
        : List (List ℚ)).isEmpty = true := by
      by_cases hsel : sel1 = []
      · simp [hsel]
      · have hvec : getVecs sel1 = [] := by tauto
        have h1 : sel1.isEmpty = false := by simpa using hsel
        simp [h1, hvec]
    rw [cold_start_movies_criteria_eq getVecs search table sel1 genres keywords
      top_k hempty] at h
    by_cases hcrit : genres.isEmpty = false ∨ keywords.isEmpty = false
    · simp only [if_pos hcrit] at h
      by_cases hcand : ((firstDedup (find_movies_by_criteria table genres
          keywords 50)) : List Int).isEmpty = false
      · rw [if_pos hcand] at h
        have hout := Except.ok.inj h
        have hnodup : (((firstDedup (find_movies_by_criteria table genres
            keywords 50)) : List Int).take top_k).Nodup :=
          (firstDedup_nodup _).sublist (List.take_sublist _ _)
        obtain ⟨hl, hn⟩ := criteria_values_bound table _ hnodup
        constructor
        · rw [← hout]
          refine le_trans hl ?_
          rw [List.length_take]
          exact Nat.min_le_left _ _
        · rw [← hout]
          exact hn
      · rw [if_neg hcand] at h
        have hout := Except.ok.inj h
        rw [← hout]
        simp
    · have hX : ((if genres.isEmpty = false ∨ keywords.isEmpty = false then
          firstDedup (find_movies_by_criteria table genres keywords 50)
        else []) : List Int) = [] := if_neg hcrit
      simp only [hX, List.isEmpty_nil, Bool.true_eq_false, if_false] at h
      have hout := Except.ok.inj h
      rw [← hout]
      simp

/-- C7: under the contract of the vector index (result length bounded by the
requested limit, distinct movie ids) and of `random.sample` (a size-`k`
sub-multiset of the population), every strategy returns at most `top_k`
movies with pairwise-distinct ids: the known-user path (both variants, with
or without fallback) and every branch of the cold-start path. -/
theorem C7_topk_bound_and_nodup (gv : Int → Option (List ℚ))
    (search : List ℚ → Nat → Except Unit (List Candidate))
    (getVecs : List Int → List (List ℚ)) (table : List MovieRow)
    (sample : List Candidate → Nat → List Candidate)
    (user_id : Int) (top_k : Nat) (ab_group : String)
    (svc : Option (String → Nat → Except Unit (List Int)))
    (selected? : Option (List Int)) (genres keywords : List String)
    (query : Option String)
    (hsearch : ∀ v k r, search v k = Except.ok r →
      r.length ≤ k ∧ (r.map (fun c => c.movie_id)).Nodup)
    (hsample : ∀ (l : List Candidate) (k : Nat), k ≤ l.length →
      (sample l k).length = k ∧ sample l k <+~ l) :
    ((recommend_for_user gv search getVecs table sample user_id top_k
        ab_group).movies.length ≤ top_k
      ∧ ((recommend_for_user gv search getVecs table sample user_id top_k
          ab_group).movies.map (fun m => m.id)).Nodup)
    ∧ (∀ out, (recommend_cold_start getVecs search table svc selected? genres
          keywords query top_k).movies = Except.ok out →
        out.length ≤ top_k ∧ (out.map (fun m => m.id)).Nodup) := by
  constructor
  · cases hgv : gv user_id with
    | none =>
      simp only [recommend_for_user, hgv]
      rw [recommend_cold_start_defaults]
      simp
    | some v =>
      cases hres : search v (if ab_group = "treatment" then top_k * 2
          else top_k) with
      | error e => simp [recommend_for_user, hgv, hres]
      | ok recs =>
        obtain ⟨hlim, hnd⟩ := hsearch _ _ _ hres
        simp only [recommend_for_user, hgv, hres]
        by_cases hbr : ab_group = "treatment" ∧ recs.length > top_k
        · rw [if_pos hbr]
          obtain ⟨hslen, hsper⟩ := hsample recs top_k (le_of_lt hbr.2)
          constructor
          · refine le_trans (enrich_movies_length_le _ _ _) ?_
            rw [List.length_map, hslen]
          · exact @enrich_movies_nodup table _ _
              (subperm_nodup (subperm_map _ hsper) hnd)
        · rw [if_neg hbr]
          have hlen2 : recs.length ≤ top_k := by
            by_cases hab : ab_group = "treatment"
            · rcases Nat.lt_or_ge top_k recs.length with hgt | hge
              · exact absurd ⟨hab, hgt⟩ hbr
              · omega
            · rw [if_neg hab] at hlim
              exact hlim
          constructor
          · refine le_trans (enrich_movies_length_le _ _ _) ?_
            rw [List.length_map]
            exact hlen2
          · exact @enrich_movies_nodup table _ _ hnd
  · intro out hout
    exact cold_start_movies_bound getVecs search table _ genres keywords top_k
      out hsearch hout

/-- C7 witness: the bound and distinctness observed with the concrete
index, sampler and table oracles, for the known-user path and a cold-start
request. -/
theorem C7_topk_bound_and_nodup_witness :
    ((recommend_for_user exGetUserVector exSearch exGetVecs exTable exSample 1 2
        "control").movies.length ≤ 2
      ∧ ((recommend_for_user exGetUserVector exSearch exGetVecs exTable exSample
          1 2 "control").movies.map (fun m => m.id)).Nodup)
    ∧ (∀ out, (recommend_cold_start exGetVecs exSearch exTable none (some [1])
          [] [] none 2).movies = Except.ok out →
        out.length ≤ 2 ∧ (out.map (fun m => m.id)).Nodup) := by
  refine C7_topk_bound_and_nodup exGetUserVector exSearch exGetVecs exTable
    exSample 1 2 "control" none (some [1]) [] [] none ?_ ?_
  · intro v k r hr
    have hr2 : exCands.take k = r := Except.ok.inj hr
    constructor
    · rw [← hr2, List.length_take]
      exact Nat.min_le_left _ _
    · rw [← hr2, List.map_take]
      exact (show ((exCands.map (fun c => c.movie_id))).Nodup by decide).sublist
        (List.take_sublist _ _)
  · intro l k hk
    constructor
    · show (l.take k).length = k
      rw [List.length_take]
      exact Nat.min_eq_left hk
    · exact (List.take_sublist _ _).subperm

end MovieRec
